import Mathlib

/-!
Verification of the bounded blocking channel and call dispatcher from
`ffilib.py` (runfalk/python-async-ffi-demo), via a shallow embedding.

The `Channel` class keeps a `deque(maxlen=maxsize)`, an `is_open` flag, and a
mutex with two condition variables.  Lock acquisition and the condition
variables themselves carry no observable state, so the embedding keeps only
the queue contents, the capacity, and the open flag.  A blocking
`Condition.wait()` is modelled by splitting each operation at its (at most
one) wait site: the prefix decides whether the operation would block, and a
separate `...Resume` function is the code that runs from the wait onward, on
whatever state the channel has when the waiter is woken.
-/

/-- State of `Channel` (src/ffilib.py lines 46-51): `queue` is the contents
of the `deque`, `maxsize` its `maxlen` (`none` = unbounded), `is_open` the
open flag. -/
structure Channel (α : Type) where
  queue : List α
  maxsize : Option Nat
  is_open : Bool

/-- `Channel.__init__(maxsize=None)`: empty deque with the given `maxlen`,
`is_open = True`. -/
def Channel.new (maxsize : Option Nat) : Channel α :=
  ⟨[], maxsize, true⟩

/-- `Channel.close`: sets `is_open = False` and notifies all waiters (the
notifications have no state of their own in the embedding). -/
def Channel.close (c : Channel α) : Channel α :=
  { c with is_open := false }

/-- `deque.append` on a `deque(maxlen=...)`: appending to a full bounded
deque silently discards elements from the opposite (left) end so that the
length never exceeds `maxlen`; an unbounded deque just appends. -/
def dequeAppend (maxlen : Option Nat) (q : List α) (x : α) : List α :=
  match maxlen with
  | none => q ++ [x]
  | some m =>
    if m < (q ++ [x]).length then (q ++ [x]).drop ((q ++ [x]).length - m)
    else q ++ [x]

/-- The guard of the single `self.not_full.wait()` in `Channel.add`
(lines 65-70): `self.is_open and self.maxsize is not None and
len(self.queue) >= self.maxsize`. -/
def Channel.addNeedsWait (c : Channel α) : Bool :=
  c.is_open &&
    match c.maxsize with
    | some m => decide (m ≤ c.queue.length)
    | none => false

/-- The code of `Channel.add` from line 71 on, i.e. what runs after the wait
returns (or when no wait was needed): `if not self.is_open: return`, then
`self.queue.append(item)`.  Note it re-checks only `is_open`, not fullness. -/
def Channel.addResume (c : Channel α) (x : α) : Channel α :=
  if c.is_open then { c with queue := dequeAppend c.maxsize c.queue x } else c

/-- `Channel.add` in a sequential run: `none` means the producer blocks in
`self.not_full.wait()` (no other thread runs to wake it); otherwise the
post-wait code executes immediately on the unchanged state. -/
def Channel.add (c : Channel α) (x : α) : Option (Channel α) :=
  if c.addNeedsWait then none else some (c.addResume x)

/-- Outcome of one iteration of the `while True` loop in
`Channel.__iter__`. -/
inductive IterStep (α : Type) where
  | blocked
  | stopped
  | yields (x : α) (rest : Channel α)
  | indexError

/-- The code of `Channel.__iter__` from line 81 on, i.e. what runs after
`self.not_empty.wait()` returns (or when no wait was needed): `if not
self.is_open: return`, then `item = self.queue.popleft()`.  It re-checks
only `is_open`; `popleft` on an empty deque raises `IndexError`. -/
def Channel.iterResume (c : Channel α) : IterStep α :=
  if c.is_open then
    match c.queue with
    | [] => IterStep.indexError
    | x :: rest => IterStep.yields x { c with queue := rest }
  else IterStep.stopped

/-- One iteration of `Channel.__iter__` in a sequential run: the guard of
the single `self.not_empty.wait()` is `self.is_open and not self.queue`
(line 79); if it holds the consumer blocks, otherwise the post-wait code
runs immediately. -/
def Channel.iterStep (c : Channel α) : IterStep α :=
  if c.is_open && c.queue.isEmpty then IterStep.blocked else c.iterResume

/-- Repeatedly run `iterStep`, collecting yielded items, for at most `fuel`
iterations (each yield removes one element, so `fuel = c.queue.length`
exhausts everything a sequential consumer can observe). -/
def drainAux : Nat → Channel α → List α
  | 0, _ => []
  | n + 1, c =>
    match c.iterStep with
    | IterStep.yields x c' => x :: drainAux n c'
    | _ => []

/-- All items a consumer iterating the channel observes in a sequential run
with no concurrent producer. -/
def Channel.drain (c : Channel α) : List α :=
  drainAux c.queue.length c

/-- The channel states passed through while draining (initial state
included). -/
def drainStatesAux : Nat → Channel α → List (Channel α)
  | 0, c => [c]
  | n + 1, c =>
    match c.iterStep with
    | IterStep.yields _ c' => c :: drainStatesAux n c'
    | _ => [c]

/-- States visited by a sequential consumer draining the channel. -/
def Channel.drainStates (c : Channel α) : List (Channel α) :=
  drainStatesAux c.queue.length c

/-- Run a sequence of `add` calls; `none` if any of them blocks.  On
success, returns the list of channel states before each add (final state
included) together with the final state. -/
def Channel.runAddsT (c : Channel α) : List α → Option (List (Channel α) × Channel α)
  | [] => some ([c], c)
  | x :: xs =>
    match c.add x with
    | none => none
    | some c' =>
      match c'.runAddsT xs with
      | none => none
      | some (cs, cf) => some (c :: cs, cf)

/-! ### Basic lemmas about the channel -/

theorem drain_of_open (q : List α) (m : Option Nat) :
    Channel.drain ⟨q, m, true⟩ = q := by
  induction q with
  | nil => rfl
  | cons x t ih =>
    simp only [Channel.drain, drainAux, Channel.iterStep, Channel.iterResume,
      List.isEmpty_cons, Bool.and_false, Bool.false_eq_true, if_false, if_true,
      List.length_cons]
    exact congrArg (x :: ·) ih

theorem drainStates_length_le (q : List α) (m : Option Nat) :
    ∀ d ∈ (Channel.drainStates ⟨q, m, true⟩ : List (Channel α)),
      d.queue.length ≤ q.length := by
  induction q with
  | nil =>
    intro d hd
    simp only [Channel.drainStates, drainStatesAux, List.mem_singleton] at hd
    subst hd
    simp
  | cons x t ih =>
    intro d hd
    simp only [Channel.drainStates, List.length_cons, drainStatesAux,
      Channel.iterStep, Channel.iterResume, List.isEmpty_cons, Bool.and_false,
      Bool.false_eq_true, if_false, if_true] at hd
    rcases List.mem_cons.mp hd with h | h
    · subst h
      simp
    · exact Nat.le_succ_of_le (ih d h)

theorem runAddsT_invariant (C : Nat) (l : List α) :
    ∀ (q : List α) (cs : List (Channel α)) (cf : Channel α),
      q.length ≤ C →
      Channel.runAddsT ⟨q, some C, true⟩ l = some (cs, cf) →
      cf = ⟨q ++ l, some C, true⟩ ∧ (q ++ l).length ≤ C ∧
        ∀ d ∈ cs, d.queue.length ≤ C := by
  induction l with
  | nil =>
    intro q cs cf hq h
    simp only [Channel.runAddsT, Option.some.injEq, Prod.mk.injEq] at h
    obtain ⟨hcs, hcf⟩ := h
    subst hcs
    subst hcf
    refine ⟨by simp, by simpa using hq, ?_⟩
    intro d hd
    simp only [List.mem_singleton] at hd
    subst hd
    exact hq
  | cons x xs ih =>
    intro q cs cf hq h
    by_cases hfull : C ≤ q.length
    · exfalso
      have hwait : (Channel.addNeedsWait ⟨q, some C, true⟩ : Bool) = true := by
        simp [Channel.addNeedsWait, hfull]
      simp only [Channel.runAddsT, Channel.add, hwait, if_true] at h
      exact Option.noConfusion h
    · push_neg at hfull
      have hwait : (Channel.addNeedsWait ⟨q, some C, true⟩ : Bool) = false := by
        simp [Channel.addNeedsWait, Nat.not_le.mpr hfull]
      have hres : (Channel.addResume ⟨q, some C, true⟩ x : Channel α)
          = ⟨q ++ [x], some C, true⟩ := by
        simp only [Channel.addResume, if_true, dequeAppend, List.length_append,
          List.length_singleton]
        have : ¬ C < q.length + 1 := by omega
        simp [this]
      have hadd : (Channel.add ⟨q, some C, true⟩ x : Option (Channel α))
          = some ⟨q ++ [x], some C, true⟩ := by
        simp [Channel.add, hwait, hres]
      simp only [Channel.runAddsT, hadd] at h
      rcases hrec : Channel.runAddsT (⟨q ++ [x], some C, true⟩ : Channel α) xs with
        _ | ⟨cs', cf'⟩
      · rw [hrec] at h
        simp at h
      · rw [hrec] at h
        simp only [Option.some.injEq, Prod.mk.injEq] at h
        obtain ⟨hcs, hcf⟩ := h
        have hlen : (q ++ [x]).length ≤ C := by
          simp only [List.length_append, List.length_singleton]
          omega
        obtain ⟨h1, h2, h3⟩ := ih (q ++ [x]) cs' cf' hlen hrec
        subst hcs
        subst hcf
        refine ⟨by simpa using h1, by simpa using h2, ?_⟩
        intro d hd
        rcases List.mem_cons.mp hd with hd | hd
        · subst hd
          exact hq
        · exact h3 d hd

/-! ### Claim theorems about the channel -/

/-- C1: for every sequence of enqueues E1..En on one `Channel` with capacity
`C` that all complete (none of them blocks forever waiting for space),
followed by dequeues, the dequeue order equals the enqueue order (FIFO), and
every channel state passed through — during the enqueues and during the
dequeues — has buffered length at most `C`. -/
theorem channel_fifo_and_bounded (C : Nat) (l : List α)
    (cs : List (Channel α)) (cf : Channel α)
    (h : (Channel.new (some C) : Channel α).runAddsT l = some (cs, cf)) :
    cf.drain = l ∧ ∀ d ∈ cs ++ cf.drainStates, d.queue.length ≤ C := by
  obtain ⟨hcf, hlen, hcs⟩ :=
    runAddsT_invariant C l [] cs cf (by simp) h
  subst hcf
  simp only [List.nil_append] at hlen ⊢
  refine ⟨drain_of_open l (some C), ?_⟩
  intro d hd
  rcases List.mem_append.mp hd with hd | hd
  · exact hcs d hd
  · exact le_trans (drainStates_length_le l (some C) d hd) hlen

/-- Witness for C1 at capacity 2 and enqueue sequence `[1, 2]`. -/
theorem channel_fifo_and_bounded_witness :
    (⟨[1, 2], some 2, true⟩ : Channel Nat).drain = [1, 2] ∧
      ∀ d ∈ ([⟨[], some 2, true⟩, ⟨[1], some 2, true⟩,
          ⟨[1, 2], some 2, true⟩] : List (Channel Nat)) ++
          (⟨[1, 2], some 2, true⟩ : Channel Nat).drainStates,
        d.queue.length ≤ 2 :=
  channel_fifo_and_bounded 2 [1, 2]
    [⟨[], some 2, true⟩, ⟨[1], some 2, true⟩, ⟨[1, 2], some 2, true⟩]
    ⟨[1, 2], some 2, true⟩ rfl

/-- C2: once the channel is closed, iteration stops immediately — the very
next dequeue attempt returns without yielding, and a consumer draining the
channel observes nothing, even if items remain buffered. -/
theorem closed_channel_yields_nothing (c : Channel α) :
    c.close.iterStep = IterStep.stopped ∧ c.close.drain = [] := by
  constructor
  · simp [Channel.iterStep, Channel.close, Channel.iterResume]
  · cases hq : c.queue with
    | nil => simp [Channel.drain, Channel.close, hq, drainAux]
    | cons x t =>
      simp [Channel.drain, Channel.close, hq, drainAux, Channel.iterStep,
        Channel.iterResume]

/-- C3: enqueue on a closed channel (or a producer that wakes from its wait
to find the channel closed) returns immediately without error, discarding
the item and leaving the channel state — in particular the buffered item
sequence — unchanged. -/
theorem closed_channel_add_discards (c : Channel α) (x : α) :
    c.close.add x = some c.close ∧ c.close.addResume x = c.close := by
  constructor
  · simp [Channel.add, Channel.addNeedsWait, Channel.close, Channel.addResume]
  · simp [Channel.addResume, Channel.close]

/-- C6 evaluation: the single non-looped waits do NOT re-validate their
predicates.  A producer blocked in `add(2)` on a full `Channel(maxsize=1)`
holding `[1]` that is woken while the buffer is still full proceeds to
append anyway, silently losing item `1`; a consumer woken while the queue is
empty (a competing consumer took the item) and the channel still open runs
`popleft` on an empty deque, raising `IndexError`. -/
theorem single_wait_proceeds_on_false_predicate :
    ((⟨[1], some 1, true⟩ : Channel Nat).addResume 2).queue = [2] ∧
      (⟨[], none, true⟩ : Channel Nat).iterResume = IterStep.indexError := by
  exact ⟨rfl, rfl⟩

/-- C7: the open flag is one-way.  After `close`, the flag is false; `add`
returns without appending anything and leaves the state (flag included)
unchanged; a dequeue attempt stops without touching the state; and a second
`close` is a no-op. -/
theorem close_monotone (c : Channel α) (x : α) :
    c.close.is_open = false ∧
      c.close.add x = some c.close ∧
      c.close.iterStep = IterStep.stopped ∧
      c.close.close = c.close := by
  refine ⟨rfl, ?_, ?_, rfl⟩
  · simp [Channel.add, Channel.addNeedsWait, Channel.close, Channel.addResume]
  · simp [Channel.iterStep, Channel.close, Channel.iterResume]

/-- C9: on a bounded channel at capacity, an append that actually executes
(the post-wait code on a still-full open channel) never raises and never
exceeds the capacity: the `maxlen`-bounded deque silently discards the
oldest buffered item, so the resulting queue is `q.drop 1 ++ [x]` and the
length stays exactly at the capacity. -/
theorem capacity_append_drops_oldest (q : List α) (C : Nat) (x : α)
    (hC : 0 < C) (hq : q.length = C) :
    ((⟨q, some C, true⟩ : Channel α).addResume x).queue = q.drop 1 ++ [x] ∧
      ((⟨q, some C, true⟩ : Channel α).addResume x).queue.length = C := by
  have hne : q ≠ [] := by
    intro h
    subst h
    simp at hq
    omega
  have hlt : C < (q ++ [x]).length := by
    simp [hq]
  have hdrop : (q ++ [x]).drop ((q ++ [x]).length - C) = q.drop 1 ++ [x] := by
    have h1 : (q ++ [x]).length - C = 1 := by
      simp [hq]
    rw [h1]
    cases q with
    | nil => exact absurd rfl hne
    | cons a t => simp
  constructor
  · simp only [Channel.addResume, if_true, dequeAppend, hlt, if_pos hlt]
    exact hdrop
  · simp only [Channel.addResume, if_true, dequeAppend, hlt, if_pos hlt]
    rw [hdrop]
    cases q with
    | nil => exact absurd rfl hne
    | cons a t =>
      simp only [List.length_append, List.length_singleton, List.drop_one,
        List.tail_cons]
      simp only [List.length_cons] at hq
      omega

/-- Witness for C9: capacity 1, buffer `[10]`, appending `20` yields `[20]`
(item `10` silently lost) with length still 1. -/
theorem capacity_append_drops_oldest_witness :
    ((⟨[10], some 1, true⟩ : Channel Nat).addResume 20).queue
        = [10].drop 1 ++ [20] ∧
      ((⟨[10], some 1, true⟩ : Channel Nat).addResume 20).queue.length = 1 :=
  capacity_append_drops_oldest [10] 1 20 (by decide) (by decide)

/-!
### Call dispatcher (`DeferredCaller`, src/ffilib.py lines 88-136)

A work item is the tuple `(f, args, kwargs, fut)` pushed onto `self.calls`
by the wrapper; the future is identified by a numeric id, with the state
carrying a fresh-id counter.  The callable is embedded as `A → Except E R`
(Python exceptions become `Except.error`).
-/

/-- One `(f, args, kwargs, fut)` tuple queued on `self.calls`. -/
structure WItem (F A : Type) where
  func : F
  args : A
  fut : Nat

/-- Observable state of a `DeferredCaller`: the wrapped lib as a name →
function association list, the work-item channel, and a counter supplying
fresh future ids (`loop.create_future()`). -/
structure DeferredCaller (F A : Type) where
  lib : List (String × F)
  calls : Channel (WItem F A)
  nextFut : Nat

/-- `DeferredCaller.__init__`: store the lib and create `Channel()` with the
default `maxsize=None`, i.e. an unbounded channel. -/
def mkDeferredCaller (lib : List (String × F)) : DeferredCaller F A :=
  ⟨lib, Channel.new none, 0⟩

/-- `getattr(self.lib, attr, None)`: look the name up in the bound function
set, `none` when absent. -/
def libGetattr (lib : List (String × F)) (attr : String) : Option F :=
  (lib.find? (fun p => p.1 == attr)).map (fun p => p.2)

/-- The message of the `AttributeError` raised by
`DeferredCaller.__getattr__` (line 127). -/
def attrErrMsg (attr : String) : String :=
  "Attribute " ++ reprStr attr ++ " not found"

/-- `DeferredCaller.__getattr__` followed by awaiting the returned wrapper:
resolve `attr` against the lib — raising `AttributeError` before anything
else if absent — then create a future and `self.calls.add` the work item.
Returns the post-call state together with the outcome: the raised error, or
`ok none` when the caller is blocked inside `add`, or `ok (some fut)` with
the future it now awaits. -/
def DeferredCaller.invokeAttr (d : DeferredCaller F A) (attr : String)
    (args : A) : DeferredCaller F A × Except String (Option Nat) :=
  match libGetattr d.lib attr with
  | none => (d, Except.error (attrErrMsg attr))
  | some f =>
    match d.calls.add ⟨f, args, d.nextFut⟩ with
    | none => (d, Except.ok none)
    | some calls' =>
      ({ d with calls := calls', nextFut := d.nextFut + 1 },
        Except.ok (some d.nextFut))

/-- One work task as the worker sees it: the callable (which may fail with
an error `E`), its arguments, and the future id to resolve. -/
structure WorkTask (A R E : Type) where
  func : A → Except E R
  args : A
  fut : Nat

/-- A callback handed to `loop.call_soon_threadsafe` by the worker: either
`fut.set_result` with a value or `fut.set_exception` with the captured
error. -/
inductive Scheduled (R E : Type) where
  | setResult (fut : Nat) (r : R)
  | setException (fut : Nat) (e : E)

/-- The body of the `for` loop in `caller_thread` (lines 112-120) for one
dequeued item: run `f(*args, **kwargs)` inside `try`; on success schedule
`fut.set_result` with the value, on an exception schedule
`fut.set_exception` with the captured error. -/
def processItem (w : WorkTask A R E) : Scheduled R E :=
  match w.func w.args with
  | Except.ok r => Scheduled.setResult w.fut r
  | Except.error e => Scheduled.setException w.fut e

/-- `caller_thread`: the worker loop over the sequence of items it dequeues
from `self.calls`, producing one scheduled callback per item. -/
def callerThread (items : List (WorkTask A R E)) : List (Scheduled R E) :=
  items.map processItem

/-! ### Claim theorems about the dispatcher -/

/-- C4: when the `i`-th work item's callable fails with error `e`, the
worker schedules `fut.set_exception` with that same captured error for that
item, and the loop survives: every one of the items (those after `i`
included) still gets processed, so the output has one callback per item. -/
theorem worker_survives_failure (items : List (WorkTask A R E)) (i : Nat)
    (w : WorkTask A R E) (e : E) (hw : items[i]? = some w)
    (he : w.func w.args = Except.error e) :
    (callerThread items)[i]? = some (Scheduled.setException w.fut e) ∧
      (callerThread items).length = items.length := by
  constructor
  · rw [callerThread, List.getElem?_map, hw]
    simp [processItem, he]
  · simp [callerThread]

/-- Witness for C4: a two-item queue whose first callable fails with `7`;
the worker schedules `set_exception 7` for it and still emits a callback for
both items. -/
theorem worker_survives_failure_witness :
    (callerThread [(⟨fun _ => Except.error 7, (), 0⟩ : WorkTask Unit Nat Nat),
        ⟨fun _ => Except.ok 5, (), 1⟩])[0]?
        = some (Scheduled.setException 0 7) ∧
      (callerThread [(⟨fun _ => Except.error 7, (), 0⟩ : WorkTask Unit Nat Nat),
          ⟨fun _ => Except.ok 5, (), 1⟩]).length
        = [(⟨fun _ => Except.error 7, (), 0⟩ : WorkTask Unit Nat Nat),
            ⟨fun _ => Except.ok 5, (), 1⟩].length :=
  worker_survives_failure
    [⟨fun _ => Except.error 7, (), 0⟩, ⟨fun _ => Except.ok 5, (), 1⟩]
    0 ⟨fun _ => Except.error 7, (), 0⟩ 7 rfl rfl

/-- C5: invoking an operation name not present in the bound function set
fails synchronously with the attribute-not-found error, before any work
item is enqueued: the dispatcher state, its channel included, is returned
unchanged. -/
theorem unknown_attr_fails_before_enqueue (d : DeferredCaller F A)
    (attr : String) (args : A) (h : libGetattr d.lib attr = none) :
    d.invokeAttr attr args = (d, Except.error (attrErrMsg attr)) := by
  simp [DeferredCaller.invokeAttr, h]

/-- Witness for C5: a dispatcher binding only `foo`, invoked as `bar`. -/
theorem unknown_attr_fails_before_enqueue_witness :
    (mkDeferredCaller [("foo", 0)] : DeferredCaller Nat Unit).invokeAttr
        "bar" ()
      = (mkDeferredCaller [("foo", 0)],
          Except.error (attrErrMsg "bar")) :=
  unknown_attr_fails_before_enqueue (mkDeferredCaller [("foo", 0)]) "bar" ()
    (by decide)

/-- C8: `DeferredCaller.__init__` creates its channel with `maxsize=None`
(unbounded), and on an unbounded channel the full-buffer wait guard is never
taken: `add` never blocks, it always runs the append path immediately, and
the channel stays unbounded afterwards, so no enqueue done for an invoke on
the dispatcher ever blocks on a full buffer. -/
theorem dispatcher_channel_unbounded (lib : List (String × F))
    (q : List (WItem F A)) (b : Bool) (x : WItem F A) :
    (mkDeferredCaller lib : DeferredCaller F A).calls.maxsize = none ∧
      (⟨q, none, b⟩ : Channel (WItem F A)).addNeedsWait = false ∧
      (⟨q, none, b⟩ : Channel (WItem F A)).add x
        = some ((⟨q, none, b⟩ : Channel (WItem F A)).addResume x) ∧
      ((⟨q, none, b⟩ : Channel (WItem F A)).addResume x).maxsize = none := by
  refine ⟨rfl, ?_, ?_, ?_⟩
  · simp [Channel.addNeedsWait]
  · simp [Channel.add, Channel.addNeedsWait]
  · cases b <;> simp [Channel.addResume]

/-!
### `cdll_with_spec` (src/ffilib.py lines 139-187)

`spec_funcs` is a *generator expression*; `assert spec_funcs` tests the
truthiness of the generator object itself, and in Python a generator object
is truthy no matter what it would yield.  A spec member is modelled as its
name paired with the result of `inspect.isfunction`.
-/

/-- A Python generator object over the values it would yield.  Its
truthiness never depends on those values. -/
structure PyGenerator (α : Type) where
  pending : List α

/-- Python `bool()` of a generator object: always `True`. -/
def PyGenerator.truthy (_ : PyGenerator α) : Bool :=
  true

/-- The name-filter prefix `"__"` of `cdll_with_spec`. -/
def dunder : String :=
  "__"

/-- The `spec_funcs` generator (lines 166-170): members whose name does not
start with `__` and for which `inspect.isfunction` holds. -/
def specFuncsGen (members : List (String × Bool)) : PyGenerator String :=
  ⟨(members.filter (fun nm => !nm.1.startsWith dunder && nm.2)).map
    (fun nm => nm.1)⟩

/-- The check `assert spec_funcs` (line 173): the truthiness of the
generator object. -/
def cdllSpecAssertOk (members : List (String × Bool)) : Bool :=
  (specFuncsGen members).truthy

/-- C10: the at-least-one-function assertion can never fail — even for a
spec class whose generator would yield zero functions, `assert spec_funcs`
tests the generator object, which is always truthy, so the assertion passes
and `cdll_with_spec` proceeds. -/
theorem spec_assert_never_fails (members : List (String × Bool))
    (_h : (specFuncsGen members).pending = []) :
    cdllSpecAssertOk members = true := by
  rfl

/-- Witness for C10: a spec with no members at all still passes the
assertion. -/
theorem spec_assert_never_fails_witness :
    cdllSpecAssertOk [] = true :=
  spec_assert_never_fails [] rfl
